import Mathlib

/-!
Verification development for the GLB container reader and Draco
locator/extractor of this repository (`util/extract_draco_binary.py`,
`util/extract_glb_json.py`).

Byte streams are modelled as `List Nat` (one entry per byte).  JSON values
produced by Python's `json.loads` are modelled by the inductive type `Json`
below; Python dictionaries become association lists in insertion order with
unique keys (duplicate keys overwrite in place, as CPython does).
-/

/-- JSON values as produced by Python's `json.loads`: `null`/`None`,
booleans, integers, strings, arrays/lists, objects/dicts. -/
inductive Json where
  | null : Json
  | bool (b : Bool) : Json
  | num (n : Int) : Json
  | str (s : String) : Json
  | arr (xs : List Json) : Json
  | obj (kvs : List (String × Json)) : Json

/-- Dictionary key lookup: `d[k]` / `d.get(k)` on a dict value; `none` when
the receiver is not a dict or the key is absent. -/
def Json.lookup : Json → String → Option Json
  | .obj kvs, k => (kvs.find? (fun p => p.1 == k)).map (fun p => p.2)
  | _, _ => none

/-- `d.get(k, default)` on a dict value. -/
def Json.getD (j : Json) (k : String) (d : Json) : Json :=
  (j.lookup k).getD d

/-- Python `x is None` on a JSON value (JSON `null` becomes Python
`None`). -/
def Json.isNull : Json → Bool
  | .null => true
  | _ => false

/-- Insert a key/value pair into an association list the way CPython dicts
do: an existing key keeps its position and gets the new value. -/
def objInsert : List (String × Json) → String → Json → List (String × Json)
  | [], k, v => [(k, v)]
  | (k', v') :: rest, k, v =>
    if k' == k then (k', v) :: rest else (k', v') :: objInsert rest k v

/-- Python truthiness of a JSON value (`if x:`): `None`, `False`, `0`, `""`,
`[]` and `{}` are falsy, everything else is truthy. -/
def pyTruthy : Json → Bool
  | .null => false
  | .bool b => b
  | .num n => n != 0
  | .str s => s != ""
  | .arr xs => !xs.isEmpty
  | .obj kvs => !kvs.isEmpty

/-- Python `len(x)`: defined for strings, lists and dicts; `none` models the
`TypeError` raised on other values. -/
def pyLen : Json → Option Nat
  | .str s => some s.length
  | .arr xs => some xs.length
  | .obj kvs => some kvs.length
  | _ => none

/-- Python list indexing `xs[i]` with an `int` index: non-negative indices
count from the front, negative indices from the back; `none` models the
`IndexError` raised when the index is out of range. -/
def pyIndex (xs : List Json) (i : Int) : Option Json :=
  if 0 ≤ i then xs.get? i.toNat
  else if 0 ≤ i + xs.length then xs.get? (i + xs.length).toNat
  else none

/-- The integer value Python uses for a JSON value in arithmetic and
comparisons: `int`s are themselves, `bool`s are 0/1 (Python's `bool` is an
`int` subclass); `none` models the `TypeError` of other operands. -/
def pyToInt : Json → Option Int
  | .num n => some n
  | .bool b => some (if b then 1 else 0)
  | _ => none

/-- Python `x == 0` for a JSON value: true exactly for `0` and `False`
(Python's `False == 0` holds); every other value compares unequal. -/
def pyEqZero : Json → Bool
  | .num n => n == 0
  | .bool b => !b
  | _ => false

/-- Clamp one endpoint of a Python slice `xs[a:b]` into `[0, len]`,
resolving negative endpoints from the back. -/
def pyNormSlice (len : Nat) (i : Int) : Nat :=
  if i < 0 then (max (i + len) 0).toNat else min i.toNat len

/-- Python slicing `xs[a:b]` with `int` endpoints (never raises). -/
def pySlice (xs : List Nat) (a b : Int) : List Nat :=
  (xs.take (pyNormSlice xs.length b)).drop (pyNormSlice xs.length a)

/-- `bytes.rstrip(b"\x00")`: drop trailing zero bytes. -/
def rstripNulls (xs : List Nat) : List Nat :=
  ((xs.reverse.dropWhile (fun b => b == 0)).reverse)

/-- JSON whitespace bytes accepted between tokens by `json.loads`:
space, tab, linefeed, carriage return. -/
def isWs (b : Nat) : Bool :=
  b == 0x20 || b == 0x09 || b == 0x0A || b == 0x0D

/-- Drop leading JSON whitespace. -/
def skipWs : List Nat → List Nat
  | [] => []
  | b :: rest => if isWs b then skipWs rest else b :: rest

/-- ASCII decimal digit. -/
def isDigit (b : Nat) : Bool := 48 ≤ b && b ≤ 57

/-- Value of a list of ASCII digit bytes. -/
def digitsToNat (ds : List Nat) : Nat :=
  ds.foldl (fun acc d => acc * 10 + (d - 48)) 0

/-- Parse a JSON integer literal (optional minus, no leading zeros).
Fractions and exponents are outside this model (the scene descriptions the
repository reads index buffers with integers). -/
def parseNum (s : List Nat) : Option (Json × List Nat) :=
  let (neg, s1) := match s with
    | 45 :: r => (true, r)
    | _ => (false, s)
  match s1 with
  | b :: _ =>
    if isDigit b then
      let ds := s1.takeWhile isDigit
      let rest := s1.dropWhile isDigit
      if decide (1 < ds.length) && b == 48 then none
      else
        match rest with
        | 46 :: _ => none
        | 101 :: _ => none
        | 69 :: _ => none
        | _ =>
          let n : Int := digitsToNat ds
          some (Json.num (if neg then -n else n), rest)
    else none
  | [] => none

/-- Parse the body of a JSON string literal (after the opening quote),
returning its characters and the rest of the input.  Escapes are the
single-character ones; raw control bytes are rejected as `json.loads`
does in strict mode.  The model covers the ASCII subset (bytes ≥ 0x80 and
`\u` escapes are out of scope for the byte ranges the claims exercise). -/
def parseStrChars : List Nat → Option (List Char × List Nat)
  | [] => none
  | b :: r =>
    if b == 34 then some ([], r)
    else if b == 92 then
      match r with
      | [] => none
      | c :: r2 =>
        let esc : Option Char :=
          if c == 34 then some '"'
          else if c == 92 then some '\\'
          else if c == 47 then some '/'
          else if c == 98 then some (Char.ofNat 8)
          else if c == 102 then some (Char.ofNat 12)
          else if c == 110 then some (Char.ofNat 10)
          else if c == 114 then some (Char.ofNat 13)
          else if c == 116 then some (Char.ofNat 9)
          else none
        match esc with
        | none => none
        | some ch =>
          match parseStrChars r2 with
          | some (cs, rest) => some (ch :: cs, rest)
          | none => none
    else if decide (b < 32) || decide (128 ≤ b) then none
    else
      match parseStrChars r with
      | some (cs, rest) => some (Char.ofNat b :: cs, rest)
      | none => none

mutual

/-- Recursive-descent model of `json.loads` value parsing over bytes, with
fuel bounding the nesting depth. -/
def parseJsonVal : Nat → List Nat → Option (Json × List Nat)
  | 0, _ => none
  | fuel + 1, input =>
    match skipWs input with
    | [] => none
    | b :: rest =>
      if b == 110 then
        match rest with
        | 117 :: 108 :: 108 :: r => some (Json.null, r)
        | _ => none
      else if b == 116 then
        match rest with
        | 114 :: 117 :: 101 :: r => some (Json.bool true, r)
        | _ => none
      else if b == 102 then
        match rest with
        | 97 :: 108 :: 115 :: 101 :: r => some (Json.bool false, r)
        | _ => none
      else if b == 34 then
        match parseStrChars rest with
        | some (cs, r) => some (Json.str (String.mk cs), r)
        | none => none
      else if b == 91 then
        match skipWs rest with
        | 93 :: r => some (Json.arr [], r)
        | s => parseArrItems fuel s []
      else if b == 123 then
        match skipWs rest with
        | 125 :: r => some (Json.obj [], r)
        | s => parseObjItems fuel s []
      else parseNum (b :: rest)

/-- Elements of a JSON array after the opening bracket. -/
def parseArrItems : Nat → List Nat → List Json → Option (Json × List Nat)
  | 0, _, _ => none
  | fuel + 1, input, acc =>
    match parseJsonVal fuel input with
    | none => none
    | some (v, r) =>
      match skipWs r with
      | 93 :: r2 => some (Json.arr (acc ++ [v]), r2)
      | 44 :: r2 => parseArrItems fuel r2 (acc ++ [v])
      | _ => none

/-- Members of a JSON object after the opening brace. -/
def parseObjItems : Nat → List Nat → List (String × Json) →
    Option (Json × List Nat)
  | 0, _, _ => none
  | fuel + 1, input, acc =>
    match skipWs input with
    | 34 :: r =>
      match parseStrChars r with
      | none => none
      | some (cs, r1) =>
        match skipWs r1 with
        | 58 :: r2 =>
          match parseJsonVal fuel r2 with
          | none => none
          | some (v, r3) =>
            let acc2 := objInsert acc (String.mk cs) v
            match skipWs r3 with
            | 125 :: r4 => some (Json.obj acc2, r4)
            | 44 :: r4 => parseObjItems fuel r4 acc2
            | _ => none
        | _ => none
    | _ => none

end

/-- Model of `bytes.decode("utf-8")` followed by `json.loads`: parse one
value and require only whitespace afterwards (trailing null bytes in
particular make the document invalid, as they do in Python). -/
def pyJsonLoads (bytes : List Nat) : Option Json :=
  match parseJsonVal (bytes.length + 1) bytes with
  | some (v, rest) => if skipWs rest == [] then some v else none
  | none => none

/-!
The GLB container reader.  `GLBParser.parse` in
`util/extract_draco_binary.py` reads the whole file through a cursor;
`f.read(n)` returns up to `n` bytes (fewer at end of file, without error),
modelled by `pyRead` over the remaining byte list.  Errors raised by the
Python code become variants of `PError`; `structError` stands for the
`struct.error` raised by `struct.unpack("<I", b)` when fewer than 4 bytes
were read.
-/

/-- Errors of the container readers (`ValueError`s and `struct.error`s the
Python functions raise). -/
inductive PError where
  | badMagic : PError
  | unsupportedVersion : PError
  | structError : PError
  | expectedJsonChunk : PError
  | invalidJson : PError
  | expectedBinChunk : PError
deriving DecidableEq, Repr

/-- `b"glTF"`. -/
def glbMagic : List Nat := [103, 108, 84, 70]

/-- `b"JSON"`. -/
def jsonTag : List Nat := [74, 83, 79, 78]

/-- `b"BIN\x00"`. -/
def binTag : List Nat := [66, 73, 78, 0]

/-- `f.read(n)`: the next `min n remaining` bytes and the rest. -/
def pyRead (s : List Nat) (n : Nat) : List Nat × List Nat :=
  (s.take n, s.drop n)

/-- Little-endian 32-bit value of a 4-byte list. -/
def le32 (bs : List Nat) : Nat :=
  match bs with
  | [a, b, c, d] => a + 256 * b + 65536 * c + 16777216 * d
  | _ => 0

/-- `struct.unpack("<I", bs)[0]`: requires exactly 4 bytes. -/
def unpackU32 (bs : List Nat) : Except PError Nat :=
  if bs.length = 4 then .ok (le32 bs) else .error .structError

/-- The mutable fields of a `GLBParser` instance that `parse` assigns. -/
structure GLBState where
  json_chunk : Option Json
  binary_chunk : Option (List Nat)

/-- The state `GLBParser.__init__` sets up. -/
def initState : GLBState := ⟨none, none⟩

/-- `GLBParser.parse` from `util/extract_draco_binary.py`, over the file's
bytes: reads the 12-byte header, the JSON chunk and, when the cursor is
still before the declared total length, the binary chunk.  The JSON payload
is decoded and parsed as read, without stripping padding.  Returns the
instance state after the call together with its outcome (mutations made
before an exception persist, as in Python). -/
def parseS (st : GLBState) (input : List Nat) : GLBState × Except PError Unit :=
  let (magic, r1) := pyRead input 4
  if magic ≠ glbMagic then (st, .error .badMagic)
  else
    let (vb, r2) := pyRead r1 4
    match unpackU32 vb with
    | .error e => (st, .error e)
    | .ok version =>
      if version ≠ 2 then (st, .error .unsupportedVersion)
      else
        let (tb, r3) := pyRead r2 4
        match unpackU32 tb with
        | .error e => (st, .error e)
        | .ok total_length =>
          let (jlb, r4) := pyRead r3 4
          match unpackU32 jlb with
          | .error e => (st, .error e)
          | .ok json_chunk_length =>
            let (jtype, r5) := pyRead r4 4
            if jtype ≠ jsonTag then (st, .error .expectedJsonChunk)
            else
              let (jdata, r6) := pyRead r5 json_chunk_length
              match pyJsonLoads jdata with
              | none => (st, .error .invalidJson)
              | some j =>
                let st1 : GLBState := { st with json_chunk := some j }
                let pos := input.length - r6.length
                if pos < total_length then
                  let (blb, r7) := pyRead r6 4
                  match unpackU32 blb with
                  | .error e => (st1, .error e)
                  | .ok binary_chunk_length =>
                    let (btype, r8) := pyRead r7 4
                    if btype ≠ binTag then (st1, .error .expectedBinChunk)
                    else
                      let (bdata, _) := pyRead r8 binary_chunk_length
                      ({ st1 with binary_chunk := some bdata }, .ok ())
                else (st1, .ok ())

/-- `extract_json_from_glb` from `util/extract_glb_json.py`: same header
and JSON-chunk reading as `GLBParser.parse`, but it strips trailing null
bytes from the JSON payload before decoding, and never reads a binary
chunk. -/
def extract_json_from_glb (input : List Nat) : Except PError Json :=
  let (magic, r1) := pyRead input 4
  if magic ≠ glbMagic then .error .badMagic
  else
    let (vb, r2) := pyRead r1 4
    match unpackU32 vb with
    | .error e => .error e
    | .ok version =>
      if version ≠ 2 then .error .unsupportedVersion
      else
        let (tb, r3) := pyRead r2 4
        match unpackU32 tb with
        | .error e => .error e
        | .ok _total_length =>
          let (clb, r4) := pyRead r3 4
          match unpackU32 clb with
          | .error e => .error e
          | .ok chunk_length =>
            let (ctype, r5) := pyRead r4 4
            if ctype ≠ jsonTag then .error .expectedJsonChunk
            else
              let (jdata, _) := pyRead r5 chunk_length
              match pyJsonLoads (rstripNulls jdata) with
              | none => .error .invalidJson
              | some j => .ok j

/-!
The Draco locator/extractor (`GLBParser.find_draco_buffers` and
`GLBParser.extract_draco_binary`).  Uncaught Python exceptions other than
the explicit `ValueError`s are modelled by the `py*` variants of `EError`.
-/

/-- Errors of `extract_draco_binary` and `find_draco_buffers`: the five
explicit `ValueError`s, plus the uncaught `TypeError` / `IndexError` /
`KeyError` / `AttributeError` the interpreter raises on ill-shaped
values. -/
inductive EError where
  | noBinaryChunk : EError
  | bufferViewOutOfRange : EError
  | unsupportedExternalBuffer : EError
  | missingLength : EError
  | rangeExceedsBuffer : EError
  | pyTypeError : EError
  | pyIndexError : EError
  | pyKeyError : EError
  | pyAttributeError : EError
deriving DecidableEq, Repr

/-- `GLBParser.extract_draco_binary(self, buffer_view_idx)`: `scene` is
`self.json_chunk`, `binary_chunk` is `self.binary_chunk`.  Mirrors the
source line by line: `if not self.binary_chunk` (so an *empty* binary
chunk is treated like an absent one), the `>= len(...)` range check (which
lets negative indices through to Python list indexing), the `buffer`,
`byteOffset` defaults and the `byteLength is None` test, the end-offset
bound, and the final slice. -/
def extract_draco_binary (scene : Json) (binary_chunk : Option (List Nat))
    (buffer_view_idx : Int) : Except EError (List Nat) :=
  match binary_chunk with
  | none => .error .noBinaryChunk
  | some bin =>
    if bin.isEmpty then .error .noBinaryChunk
    else
      match scene with
      | .obj _ =>
        let buffer_views := scene.getD "bufferViews" (Json.arr [])
        match pyLen buffer_views with
        | none => .error .pyTypeError
        | some n =>
          if (n : Int) ≤ buffer_view_idx then .error .bufferViewOutOfRange
          else
            match buffer_views with
            | .arr views =>
              match pyIndex views buffer_view_idx with
              | none => .error .pyIndexError
              | some bv =>
                match bv with
                | .obj _ =>
                  let buffer_idx := bv.getD "buffer" (Json.num 0)
                  let byte_offset := bv.getD "byteOffset" (Json.num 0)
                  let byte_length := bv.getD "byteLength" Json.null
                  if !pyEqZero buffer_idx then .error .unsupportedExternalBuffer
                  else if byte_length.isNull then .error .missingLength
                  else
                    match pyToInt byte_offset, pyToInt byte_length with
                    | some off, some blen =>
                      if (bin.length : Int) < off + blen then
                        .error .rangeExceedsBuffer
                      else .ok (pySlice bin off (off + blen))
                    | _, _ => .error .pyTypeError
                | _ => .error .pyAttributeError
            | .str s =>
              if 0 ≤ buffer_view_idx + s.length then .error .pyAttributeError
              else .error .pyIndexError
            | .obj _ => .error .pyKeyError
            | _ => .error .pyTypeError
      | _ => .error .pyAttributeError

/-- One entry of the list `find_draco_buffers` builds: the dict
`{'mesh_index': …, 'primitive_index': …, 'buffer_view_index': …,
'attributes': …, 'indices': …}`. -/
structure DracoRef where
  mesh_index : Nat
  primitive_index : Nat
  buffer_view_index : Json
  attributes : Json
  indices : Json

/-- The loop body of `find_draco_buffers` for one primitive: look up the
`KHR_draco_mesh_compression` extension, skip the primitive when the
record is falsy (`if draco_ext:`) or its `bufferView` is `None`
(`is not None`), otherwise build the reference. -/
def refOfPrim (mi pi : Nat) (prim : Json) : Except EError (Option DracoRef) :=
  match prim with
  | .obj _ =>
    let extensions := prim.getD "extensions" (Json.obj [])
    match extensions with
    | .obj _ =>
      let draco_ext := extensions.getD "KHR_draco_mesh_compression" Json.null
      if pyTruthy draco_ext then
        match draco_ext with
        | .obj _ =>
          let buffer_view_idx := draco_ext.getD "bufferView" Json.null
          if buffer_view_idx.isNull then .ok none
          else
            .ok (some
              { mesh_index := mi
                primitive_index := pi
                buffer_view_index := buffer_view_idx
                attributes := draco_ext.getD "attributes" (Json.obj [])
                indices := draco_ext.getD "indices" Json.null })
        | _ => .error .pyAttributeError
      else .ok none
    | _ => .error .pyAttributeError
  | _ => .error .pyAttributeError

/-- The inner `for prim_idx, primitive in enumerate(...)` loop. -/
def collectPrims (mi : Nat) : Nat → List Json → Except EError (List DracoRef)
  | _, [] => .ok []
  | pi, p :: rest =>
    match refOfPrim mi pi p with
    | .error e => .error e
    | .ok r =>
      match collectPrims mi (pi + 1) rest with
      | .error e => .error e
      | .ok rs =>
        .ok (match r with
          | some x => x :: rs
          | none => rs)

/-- `mesh.get('primitives', [])` followed by the primitive loop for one
mesh. -/
def meshRefs (mi : Nat) (mesh : Json) : Except EError (List DracoRef) :=
  match mesh with
  | .obj _ =>
    match mesh.getD "primitives" (Json.arr []) with
    | .arr prims => collectPrims mi 0 prims
    | _ => .error .pyTypeError
  | _ => .error .pyAttributeError

/-- The outer `for mesh_idx, mesh in enumerate(...)` loop, starting at
index `k`. -/
def collectMeshes : Nat → List Json → Except EError (List DracoRef)
  | _, [] => .ok []
  | k, m :: rest =>
    match meshRefs k m with
    | .error e => .error e
    | .ok rs =>
      match collectMeshes (k + 1) rest with
      | .error e => .error e
      | .ok more => .ok (rs ++ more)

/-- `GLBParser.find_draco_buffers`: `if 'meshes' in self.json_chunk:` then
iterate `self.json_chunk['meshes']`, else return the empty list.  A
non-dict scene or a non-list `meshes` value makes the Python loop raise;
those shapes (excluded by every claim) are folded into `pyTypeError`. -/
def find_draco_buffers (scene : Json) : Except EError (List DracoRef) :=
  match scene with
  | .obj _ =>
    match scene.lookup "meshes" with
    | none => .ok []
    | some (Json.arr meshes) => collectMeshes 0 meshes
    | some _ => .error .pyTypeError
  | _ => .error .pyTypeError

/-!
Well-formedness of a scene description, following the data model of the
specification (meshes are a sequence of records, each with a sequence of
primitive records; a primitive's `extensions` is a record whose Draco
entry, when present, is `null` or a record).
-/

/-- The Draco extension value, when present, is `null` or an object. -/
def wfDraco : Json → Bool
  | Json.null => true
  | Json.obj _ => true
  | _ => false

/-- A primitive record: an object whose `extensions` default is an object
and whose Draco entry satisfies `wfDraco`. -/
def wfPrim (p : Json) : Bool :=
  match p with
  | .obj _ =>
    match p.getD "extensions" (Json.obj []) with
    | .obj ekvs =>
      wfDraco ((Json.obj ekvs).getD "KHR_draco_mesh_compression" Json.null)
    | _ => false
  | _ => false

/-- A mesh record: an object whose `primitives` default is a list of
well-formed primitives. -/
def wfMesh (m : Json) : Bool :=
  match m with
  | .obj _ =>
    match m.getD "primitives" (Json.arr []) with
    | .arr ps => ps.all wfPrim
    | _ => false
  | _ => false

/-- A scene description: an object whose `meshes` entry, when present, is
a list of well-formed meshes. -/
def wfScene (s : Json) : Bool :=
  match s with
  | .obj _ =>
    match s.lookup "meshes" with
    | none => true
    | some (Json.arr ms) => ms.all wfMesh
    | some _ => false
  | _ => false

/-- Strict (mesh index, primitive index) lexicographic order on
references. -/
def refLexLt (a b : DracoRef) : Prop :=
  a.mesh_index < b.mesh_index ∨
    (a.mesh_index = b.mesh_index ∧ a.primitive_index < b.primitive_index)

/-- Little-endian 4-byte encoding of `n % 2^32`. -/
def mkU32 (n : Nat) : List Nat :=
  [n % 256, n / 256 % 256, n / 65536 % 256, n / 16777216 % 256]

/-- A GLB byte stream: 12-byte header with the file's total length, a JSON
chunk carrying `jsonPayload`, and a binary chunk carrying `bin`. -/
def buildGlb (jsonPayload : List Nat) (bin : List Nat) : List Nat :=
  let total := 12 + 8 + jsonPayload.length + 8 + bin.length
  glbMagic ++ mkU32 2 ++ mkU32 total ++
    mkU32 jsonPayload.length ++ jsonTag ++ jsonPayload ++
    mkU32 bin.length ++ binTag ++ bin

/-!
General lemmas about the embedded operations.
-/

/-- A successful `get?` implies the index is in range. -/
theorem get?_lt {α : Type} {l : List α} {i : Nat} {a : α}
    (h : l.get? i = some a) : i < l.length := by
  by_contra hc
  rw [List.get?_eq_none.mpr (by omega)] at h
  cases h

/-- For in-bounds non-negative endpoints, the Python slice `xs[off:off+L]`
is drop-then-take. -/
theorem pySlice_nat (xs : List Nat) (off L : Nat) (h : off + L ≤ xs.length) :
    pySlice xs (off : Int) ((off : Int) + (L : Int)) = (xs.drop off).take L := by
  unfold pySlice pyNormSlice
  have h2 : ¬((off : Int) + (L : Int) < 0) := by omega
  have h1 : ¬((off : Int) < 0) := by omega
  have e1 : ((off : Int) + (L : Int)).toNat = off + L := by omega
  have e2 : ((off : Int)).toNat = off := by omega
  rw [if_neg h2, if_neg h1, e1, e2]
  have m1 : min (off + L) xs.length = off + L := by omega
  have m2 : min off xs.length = off := by omega
  rw [m1, m2, List.drop_take]
  congr 1
  omega

/-- `mkU32` always yields 4 bytes. -/
theorem mkU32_length (n : Nat) : (mkU32 n).length = 4 := rfl

/-- `mkU32` is a section of `le32` below `2^32`. -/
theorem le32_mkU32 (n : Nat) (h : n < 4294967296) : le32 (mkU32 n) = n := by
  simp only [mkU32, le32]
  omega

/-- Unpacking an encoded 32-bit field recovers its value. -/
theorem unpackU32_mkU32 (n : Nat) (h : n < 4294967296) :
    unpackU32 (mkU32 n) = .ok n := by
  unfold unpackU32
  rw [if_pos (mkU32_length n), le32_mkU32 n h]

/-- Reading exactly the length of a prefix returns that prefix and the
rest. -/
theorem pyRead_append (a b : List Nat) (n : Nat) (h : a.length = n) :
    pyRead (a ++ b) n = (a, b) := by
  unfold pyRead
  rw [List.take_left' h, List.drop_left' h]

/-- Stripping trailing nulls removes an appended block of null padding. -/
theorem rstripNulls_pad (xs : List Nat) (k : Nat) :
    rstripNulls (xs ++ List.replicate k 0) = rstripNulls xs := by
  unfold rstripNulls
  rw [List.reverse_append, List.reverse_replicate]
  congr 1
  induction k with
  | zero => simp
  | succ k' ih => simpa using ih

/-- `parse` run from any instance state: the outcome depends only on the
input bytes, and a field the run does not assign keeps the old state's
value. -/
theorem parseS_st (st : GLBState) (input : List Nat) :
    parseS st input =
      ({ json_chunk :=
          ((parseS initState input).1.json_chunk).orElse
            (fun _ => st.json_chunk),
         binary_chunk :=
          ((parseS initState input).1.binary_chunk).orElse
            (fun _ => st.binary_chunk) },
       (parseS initState input).2) := by
  unfold parseS
  simp only [pyRead, initState]
  repeat' split <;> try simp_all

/-- `o <|> o = o` for options. -/
theorem orElse_self_opt {α : Type} (o : Option α) :
    o.orElse (fun _ => o) = o := by
  cases o <;> rfl

/-!
Round-trip lemmas for `GLBParser.parse` and `extract_json_from_glb` on
streams built by `buildGlb`.
-/

set_option maxHeartbeats 2000000 in
/-- `GLBParser.parse` on a built GLB whose JSON payload carries no padding
recovers the document and the exact binary payload. -/
theorem parse_buildGlb_unpadded (payload bin : List Nat) (doc : Json)
    (hdoc : pyJsonLoads payload = some doc)
    (hlen : 28 + payload.length + bin.length < 4294967296) :
    parseS initState (buildGlb payload bin) =
      ({ json_chunk := some doc, binary_chunk := some bin }, .ok ()) := by
  have hjl : payload.length < 4294967296 := by omega
  have hbl : bin.length < 4294967296 := by omega
  have htot : 12 + 8 + payload.length + 8 + bin.length < 4294967296 := by omega
  have u2 : unpackU32 (mkU32 2) = .ok 2 := unpackU32_mkU32 2 (by omega)
  have utot := unpackU32_mkU32 (12 + 8 + payload.length + 8 + bin.length) htot
  have ujl := unpackU32_mkU32 payload.length hjl
  have ubl := unpackU32_mkU32 bin.length hbl
  have lg : glbMagic.length = 4 := rfl
  have lj : jsonTag.length = 4 := rfl
  have lb : binTag.length = 4 := rfl
  unfold parseS buildGlb
  simp only [List.append_assoc, pyRead, List.take_left', List.drop_left',
    mkU32_length, lg, lj, lb, u2, utot, ujl, ubl, hdoc, ne_eq,
    not_true_eq_false, Bool.false_eq_true, if_false, ite_false,
    List.take_length, eq_self_iff_true, not_true, reduceIte]
  have hpos :
      (glbMagic ++ (mkU32 2 ++ (mkU32 (12 + 8 + payload.length + 8 + bin.length) ++
        (mkU32 payload.length ++ (jsonTag ++ (payload ++
        (mkU32 bin.length ++ (binTag ++ bin)))))))).length -
        (mkU32 bin.length ++ (binTag ++ bin)).length =
        20 + payload.length := by
    simp [glbMagic, jsonTag, binTag, mkU32]
    omega
  rw [hpos]
  rw [if_pos (by omega)]

set_option maxHeartbeats 2000000 in
/-- `extract_json_from_glb` on a built GLB strips the null padding of the
JSON payload and recovers the document. -/
theorem extract_json_buildGlb_padded (payload bin : List Nat) (pad : Nat)
    (doc : Json)
    (hdoc : pyJsonLoads payload = some doc)
    (hstrip : rstripNulls payload = payload)
    (hlen : 28 + (payload.length + pad) + bin.length < 4294967296) :
    extract_json_from_glb (buildGlb (payload ++ List.replicate pad 0) bin) =
      .ok doc := by
  have hpl : (payload ++ List.replicate pad 0).length = payload.length + pad := by
    simp
  have htot : 12 + 8 + (payload ++ List.replicate pad 0).length + 8 + bin.length
      < 4294967296 := by
    rw [hpl]; omega
  have hjl : (payload ++ List.replicate pad 0).length < 4294967296 := by
    rw [hpl]; omega
  have u2 : unpackU32 (mkU32 2) = .ok 2 := unpackU32_mkU32 2 (by omega)
  have utot := unpackU32_mkU32 _ htot
  have ujl := unpackU32_mkU32 _ hjl
  have lg : glbMagic.length = 4 := rfl
  have lj : jsonTag.length = 4 := rfl
  have hload : pyJsonLoads (rstripNulls (payload ++ List.replicate pad 0)) =
      some doc := by
    rw [rstripNulls_pad, hstrip, hdoc]
  have htake : List.take (payload ++ List.replicate pad 0).length
      (payload ++ (List.replicate pad 0 ++ (mkU32 bin.length ++ (binTag ++ bin)))) =
      payload ++ List.replicate pad 0 := by
    rw [← List.append_assoc]
    exact List.take_left' rfl
  unfold extract_json_from_glb buildGlb
  simp only [List.append_assoc, pyRead, List.take_left', List.drop_left',
    mkU32_length, lg, lj, u2, utot, ujl, ne_eq, not_true_eq_false,
    Bool.false_eq_true, if_false, ite_false, eq_self_iff_true, not_true,
    reduceIte]
  rw [htake, hload]

/-- Claim C1, counterexample: a valid GLB whose serialized JSON document
`{}` is padded to a 4-byte boundary with two trailing null bytes, followed
by a binary chunk.  The claim says `parse` succeeds after stripping the
padding; `GLBParser.parse` does not strip and `json.loads` rejects the
trailing nulls, so parsing fails. -/
theorem c1_counterexample :
    (parseS initState
      (buildGlb ([123, 125] ++ List.replicate 2 0) [7])).2 =
      .error .invalidJson := rfl

/-- Claim C1, amended: `extract_json_from_glb` strips trailing null
padding before decoding and recovers the document of any null-padded valid
GLB (whose serialized document does not itself end in a null byte), and
`GLBParser.parse` round-trips — document recovered up to JSON equality and
binary chunk byte-identical — exactly when the JSON payload carries no
null padding. -/
theorem c1_roundtrip_amended :
    (∀ (payload bin : List Nat) (pad : Nat) (doc : Json),
      pyJsonLoads payload = some doc →
      rstripNulls payload = payload →
      (payload.length + pad) % 4 = 0 →
      28 + (payload.length + pad) + bin.length < 4294967296 →
      extract_json_from_glb (buildGlb (payload ++ List.replicate pad 0) bin) =
        .ok doc) ∧
    (∀ (payload bin : List Nat) (doc : Json),
      pyJsonLoads payload = some doc →
      28 + payload.length + bin.length < 4294967296 →
      parseS initState (buildGlb payload bin) =
        ({ json_chunk := some doc, binary_chunk := some bin }, .ok ())) :=
  ⟨fun payload bin pad doc hdoc hstrip _ hlen =>
    extract_json_buildGlb_padded payload bin pad doc hdoc hstrip hlen,
   fun payload bin doc hdoc hlen =>
    parse_buildGlb_unpadded payload bin doc hdoc hlen⟩

/-- Claim C1, witness: the document `{}` with two bytes of padding and a
one-byte binary chunk. -/
theorem c1_witness :
    pyJsonLoads [123, 125] = some (Json.obj []) ∧
    extract_json_from_glb (buildGlb ([123, 125] ++ List.replicate 2 0) [7]) =
      .ok (Json.obj []) ∧
    parseS initState (buildGlb [123, 125] [9, 9]) =
      ({ json_chunk := some (Json.obj []), binary_chunk := some [9, 9] },
        .ok ()) :=
  ⟨rfl,
   c1_roundtrip_amended.1 [123, 125] [7] 2 (Json.obj []) rfl rfl (by decide)
     (by decide),
   c1_roundtrip_amended.2 [123, 125] [9, 9] (Json.obj []) rfl (by decide)⟩

set_option maxHeartbeats 2000000 in
/-- A JSON chunk declaring more bytes than remain makes the short read
return the whole remaining stream; parsing fails (with the invalid-JSON
error, not a truncation error) exactly because that prefix is not a valid
document. -/
theorem parse_truncated_json (total jlen : Nat) (rest : List Nat)
    (htot : total < 4294967296) (hjl : jlen < 4294967296)
    (hshort : rest.length < jlen)
    (hbad : pyJsonLoads rest = none) :
    (parseS initState (glbMagic ++ mkU32 2 ++ mkU32 total ++ mkU32 jlen ++
      jsonTag ++ rest)).2 = .error .invalidJson := by
  have u2 : unpackU32 (mkU32 2) = .ok 2 := unpackU32_mkU32 2 (by omega)
  have utot := unpackU32_mkU32 total htot
  have ujl := unpackU32_mkU32 jlen hjl
  have lg : glbMagic.length = 4 := rfl
  have lj : jsonTag.length = 4 := rfl
  have hall : List.take jlen rest = rest := List.take_of_length_le (by omega)
  unfold parseS
  simp only [List.append_assoc, pyRead, List.take_left', List.drop_left',
    mkU32_length, lg, lj, u2, utot, ujl, hall, hbad, ne_eq, not_true_eq_false,
    Bool.false_eq_true, if_false, ite_false, eq_self_iff_true, not_true,
    reduceIte]

set_option maxHeartbeats 2000000 in
/-- A binary chunk declaring more bytes than remain is read short without
any error: `parse` succeeds and returns the silently truncated buffer. -/
theorem parse_truncated_binary (payload binAvail : List Nat) (blen : Nat)
    (doc : Json)
    (hdoc : pyJsonLoads payload = some doc)
    (hshort : binAvail.length < blen) (hbl : blen < 4294967296)
    (hlen : 28 + payload.length + binAvail.length < 4294967296) :
    parseS initState (glbMagic ++ mkU32 2 ++
        mkU32 (28 + payload.length + binAvail.length) ++
        mkU32 payload.length ++ jsonTag ++ payload ++ mkU32 blen ++ binTag ++
        binAvail) =
      ({ json_chunk := some doc, binary_chunk := some binAvail }, .ok ()) := by
  have hjl : payload.length < 4294967296 := by omega
  have u2 : unpackU32 (mkU32 2) = .ok 2 := unpackU32_mkU32 2 (by omega)
  have utot := unpackU32_mkU32 (28 + payload.length + binAvail.length) hlen
  have ujl := unpackU32_mkU32 payload.length hjl
  have ubl := unpackU32_mkU32 blen hbl
  have lg : glbMagic.length = 4 := rfl
  have lj : jsonTag.length = 4 := rfl
  have lb : binTag.length = 4 := rfl
  have hall : List.take blen binAvail = binAvail :=
    List.take_of_length_le (by omega)
  unfold parseS
  simp only [List.append_assoc, pyRead, List.take_left', List.drop_left',
    mkU32_length, lg, lj, lb, u2, utot, ujl, ubl, hdoc, hall, ne_eq,
    not_true_eq_false, Bool.false_eq_true, if_false, ite_false,
    eq_self_iff_true, not_true, reduceIte]
  have hpos :
      (glbMagic ++ (mkU32 2 ++ (mkU32 (28 + payload.length + binAvail.length) ++
        (mkU32 payload.length ++ (jsonTag ++ (payload ++
        (mkU32 blen ++ (binTag ++ binAvail)))))))).length -
        (mkU32 blen ++ (binTag ++ binAvail)).length =
        20 + payload.length := by
    simp [glbMagic, jsonTag, binTag, mkU32]
    omega
  rw [hpos]
  rw [if_pos (by omega)]

/-- Claim C5, counterexample: a stream whose JSON chunk declares 10 bytes
while only the 2 bytes `{}` remain.  The claim says parse must fail with a
truncation error; instead the short read returns `{}`, parsing succeeds,
and no binary chunk is read. -/
theorem c5_counterexample :
    parseS initState
      (glbMagic ++ mkU32 2 ++ mkU32 22 ++ mkU32 10 ++ jsonTag ++ [123, 125]) =
      ({ json_chunk := some (Json.obj []), binary_chunk := none },
        .ok ()) := rfl

/-- Claim C5, amended: the reader never reads past the end of the input —
a short read returns only the available bytes — but an over-declared chunk
length is not itself an error: an over-declared JSON chunk fails (with
`invalidJson`) only when the remaining bytes are not a valid document, and
an over-declared binary chunk is returned silently truncated. -/
theorem c5_truncation_amended :
    (∀ (total jlen : Nat) (rest : List Nat),
      total < 4294967296 → jlen < 4294967296 →
      rest.length < jlen → pyJsonLoads rest = none →
      (parseS initState (glbMagic ++ mkU32 2 ++ mkU32 total ++ mkU32 jlen ++
        jsonTag ++ rest)).2 = .error .invalidJson) ∧
    (∀ (payload binAvail : List Nat) (blen : Nat) (doc : Json),
      pyJsonLoads payload = some doc →
      binAvail.length < blen → blen < 4294967296 →
      28 + payload.length + binAvail.length < 4294967296 →
      parseS initState (glbMagic ++ mkU32 2 ++
          mkU32 (28 + payload.length + binAvail.length) ++
          mkU32 payload.length ++ jsonTag ++ payload ++ mkU32 blen ++
          binTag ++ binAvail) =
        ({ json_chunk := some doc, binary_chunk := some binAvail },
          .ok ())) :=
  ⟨fun total jlen rest htot hjl hshort hbad =>
    parse_truncated_json total jlen rest htot hjl hshort hbad,
   fun payload binAvail blen doc hdoc hshort hbl hlen =>
    parse_truncated_binary payload binAvail blen doc hdoc hshort hbl hlen⟩

/-- Claim C5, witness: a declared JSON length of 10 against the single
invalid byte `:`, and a declared binary length of 9 against a single
available byte. -/
theorem c5_witness :
    (([58] : List Nat).length < 10 ∧
      (parseS initState (glbMagic ++ mkU32 2 ++ mkU32 21 ++ mkU32 10 ++
        jsonTag ++ [58])).2 = .error .invalidJson) ∧
    (([4] : List Nat).length < 9 ∧
      parseS initState (glbMagic ++ mkU32 2 ++ mkU32 31 ++ mkU32 2 ++
          jsonTag ++ [123, 125] ++ mkU32 9 ++ binTag ++ [4]) =
        ({ json_chunk := some (Json.obj []), binary_chunk := some [4] },
          .ok ())) :=
  ⟨⟨by decide,
    c5_truncation_amended.1 21 10 [58] (by decide) (by decide) (by decide) rfl⟩,
   ⟨by decide,
    c5_truncation_amended.2 [123, 125] [4] 9 (Json.obj []) rfl (by decide)
      (by decide) (by decide)⟩⟩

/-- Claim C6: any stream whose first four bytes differ from `glTF` fails
with the bad-magic error in both readers; any stream with correct magic
whose little-endian 32-bit version field is not 2 fails with the
unsupported-version error in both readers. -/
theorem c6_magic_version_rejection (input : List Nat) :
    (input.take 4 ≠ glbMagic →
      (parseS initState input).2 = .error .badMagic ∧
      extract_json_from_glb input = .error .badMagic) ∧
    (8 ≤ input.length → input.take 4 = glbMagic →
      le32 ((input.drop 4).take 4) ≠ 2 →
      (parseS initState input).2 = .error .unsupportedVersion ∧
      extract_json_from_glb input = .error .unsupportedVersion) := by
  constructor
  · intro h
    constructor <;> simp [parseS, extract_json_from_glb, pyRead, h]
  · intro h8 hm hv
    have hlen : ((input.drop 4).take 4).length = 4 := by
      simp only [List.length_take, List.length_drop]
      omega
    constructor <;>
      simp [parseS, extract_json_from_glb, pyRead, hm, unpackU32, hlen, hv]

/-- Claim C6, witness: a zero magic, and a correct magic with version 3. -/
theorem c6_witness :
    (([0, 0, 0, 0] : List Nat).take 4 ≠ glbMagic ∧
      (parseS initState [0, 0, 0, 0]).2 = .error .badMagic) ∧
    (8 ≤ (glbMagic ++ [3, 0, 0, 0]).length ∧
      (parseS initState (glbMagic ++ [3, 0, 0, 0])).2 =
        .error .unsupportedVersion ∧
      extract_json_from_glb (glbMagic ++ [3, 0, 0, 0]) =
        .error .unsupportedVersion) :=
  ⟨⟨by decide, ((c6_magic_version_rejection [0, 0, 0, 0]).1 (by decide)).1⟩,
   ⟨by decide,
    ((c6_magic_version_rejection (glbMagic ++ [3, 0, 0, 0])).2 (by decide)
      (by decide) (by decide)).1,
    ((c6_magic_version_rejection (glbMagic ++ [3, 0, 0, 0])).2 (by decide)
      (by decide) (by decide)).2⟩⟩

/-- Claim C8: `parse` is deterministic and idempotent — running it again
on the same bytes, from the instance state the first run left behind,
returns exactly the first run's state and outcome; no hidden mutable state
affects the result. -/
theorem c8_parse_idempotent (input : List Nat) :
    parseS (parseS initState input).1 input = parseS initState input := by
  rw [parseS_st]
  rw [orElse_self_opt, orElse_self_opt]

/-- Reduction of `extract_draco_binary` once a non-empty binary chunk, a
buffer-view array and an in-range object-valued buffer view are fixed. -/
theorem extract_at_bv (skvs : List (String × Json)) (views : List Json)
    (bkvs : List (String × Json)) (bin : List Nat) (idx : Nat)
    (hbin : bin ≠ [])
    (hviews : (Json.obj skvs).getD "bufferViews" (Json.arr []) = Json.arr views)
    (hbv : views.get? idx = some (Json.obj bkvs)) :
    extract_draco_binary (Json.obj skvs) (some bin) idx =
      (if (!pyEqZero ((Json.obj bkvs).getD "buffer" (Json.num 0))) = true then
        .error .unsupportedExternalBuffer
      else if ((Json.obj bkvs).getD "byteLength" Json.null).isNull then
        .error .missingLength
      else
        match pyToInt ((Json.obj bkvs).getD "byteOffset" (Json.num 0)),
            pyToInt ((Json.obj bkvs).getD "byteLength" Json.null) with
        | some off, some blen =>
          if (bin.length : Int) < off + blen then .error .rangeExceedsBuffer
          else .ok (pySlice bin off (off + blen))
        | _, _ => .error .pyTypeError) := by
  have hidx : idx < views.length := get?_lt hbv
  unfold extract_draco_binary
  simp only [List.isEmpty_eq_false.mpr hbin, hviews, pyLen, Bool.false_eq_true,
    if_false]
  rw [if_neg (show ¬((views.length : Int) ≤ (idx : Int)) by omega)]
  unfold pyIndex
  rw [if_pos (show (0 : Int) ≤ (idx : Int) by omega)]
  simp only [Int.toNat_ofNat, hbv]

/-- Claim C2, counterexample: a buffer view `{byteLength: 0}` against a
present but empty binary buffer.  All of the claim's hypotheses hold
(`0 + 0 ≤ 0`), so the claim demands the empty slice; the code's
`if not self.binary_chunk` treats the empty buffer as absent and raises
the no-binary-chunk error instead. -/
theorem c2_counterexample :
    extract_draco_binary
        (Json.obj [("bufferViews", Json.arr [Json.obj [("byteLength", Json.num 0)]])])
        (some []) 0 = .error .noBinaryChunk ∧
    extract_draco_binary
        (Json.obj [("bufferViews", Json.arr [Json.obj [("byteLength", Json.num 0)]])])
        (some []) 0 ≠ .ok ((([] : List Nat).drop 0).take 0) :=
  ⟨rfl, fun h => Except.noConfusion h⟩

/-- Claim C2, amended: for a *non-empty* binary buffer, an in-range buffer
view with buffer index 0 (also when the field is absent), a declared
integer `byteLength`, and `byteOffset` defaulting to 0 when absent, with
`byteOffset + byteLength` within the buffer, extract returns exactly the
byte slice `[byteOffset, byteOffset + byteLength)`. -/
theorem c2_extract_slice_amended (skvs : List (String × Json))
    (views : List Json) (bkvs : List (String × Json)) (bin : List Nat)
    (idx off L : Nat)
    (hbin : bin ≠ [])
    (hviews : (Json.obj skvs).getD "bufferViews" (Json.arr []) = Json.arr views)
    (hbv : views.get? idx = some (Json.obj bkvs))
    (hbuf : (Json.obj bkvs).getD "buffer" (Json.num 0) = Json.num 0)
    (hoff : (Json.obj bkvs).getD "byteOffset" (Json.num 0) = Json.num off)
    (hlen : (Json.obj bkvs).lookup "byteLength" = some (Json.num L))
    (hrange : off + L ≤ bin.length) :
    extract_draco_binary (Json.obj skvs) (some bin) idx =
      .ok ((bin.drop off).take L) := by
  have hL : (Json.obj bkvs).getD "byteLength" Json.null = Json.num L := by
    unfold Json.getD
    rw [hlen]
    rfl
  rw [extract_at_bv skvs views bkvs bin idx hbin hviews hbv]
  simp only [hbuf, hoff, hL, pyEqZero, pyToInt, Json.isNull]
  norm_num
  rw [if_neg (show ¬((bin.length : Int) < (off : Int) + (L : Int)) by omega)]
  exact congrArg Except.ok (pySlice_nat bin off L hrange)

/-- Claim C2, witness: slicing bytes `[1, 3)` out of a 4-byte buffer. -/
theorem c2_witness :
    (1 + 2 ≤ ([5, 6, 7, 8] : List Nat).length) ∧
    extract_draco_binary
        (Json.obj [("bufferViews", Json.arr [Json.obj
          [("buffer", Json.num 0), ("byteOffset", Json.num 1),
            ("byteLength", Json.num 2)]])])
        (some [5, 6, 7, 8]) 0 =
      .ok ((([5, 6, 7, 8] : List Nat).drop 1).take 2) :=
  ⟨by decide,
   c2_extract_slice_amended
     [("bufferViews", Json.arr [Json.obj
       [("buffer", Json.num 0), ("byteOffset", Json.num 1),
         ("byteLength", Json.num 2)]])]
     [Json.obj [("buffer", Json.num 0), ("byteOffset", Json.num 1),
       ("byteLength", Json.num 2)]]
     [("buffer", Json.num 0), ("byteOffset", Json.num 1),
       ("byteLength", Json.num 2)]
     [5, 6, 7, 8] 0 1 2 (by simp) rfl rfl rfl rfl rfl (by decide)⟩

/-- Claim C3, counterexample: a buffer view `{byteLength: 5}` against a
present but empty binary buffer.  The claim's enumeration assigns this
input the range error (`0 + 5` exceeds the size 0); the code raises the
no-binary-chunk error because `if not self.binary_chunk` also fires on an
empty buffer. -/
theorem c3_counterexample :
    extract_draco_binary
        (Json.obj [("bufferViews", Json.arr [Json.obj [("byteLength", Json.num 5)]])])
        (some []) 0 = .error .noBinaryChunk ∧
    extract_draco_binary
        (Json.obj [("bufferViews", Json.arr [Json.obj [("byteLength", Json.num 5)]])])
        (some []) 0 ≠ .error .rangeExceedsBuffer :=
  ⟨rfl, fun h => by cases h⟩

/-- Claim C3, amended: over integer-typed buffer-view records and
non-negative indices, extract fails exactly per the enumeration, checked
in order — no-binary-chunk when the buffer is absent *or empty*;
out-of-range when the index reaches the buffer-view count; external-buffer
when the referenced view's buffer index is not 0; missing-length when it
declares no byte length (or declares it `null`); range error when
`byteOffset + byteLength` exceeds the buffer size; otherwise the slice is
returned. -/
theorem c3_error_enumeration_amended (skvs : List (String × Json)) (idx : Nat) :
    extract_draco_binary (Json.obj skvs) none idx = .error .noBinaryChunk ∧
    extract_draco_binary (Json.obj skvs) (some []) idx =
      .error .noBinaryChunk ∧
    ∀ (views : List Json) (bin : List Nat), bin ≠ [] →
      (Json.obj skvs).getD "bufferViews" (Json.arr []) = Json.arr views →
      ((views.length ≤ idx →
          extract_draco_binary (Json.obj skvs) (some bin) idx =
            .error .bufferViewOutOfRange) ∧
        ∀ (bkvs : List (String × Json)), views.get? idx = some (Json.obj bkvs) →
          ((pyEqZero ((Json.obj bkvs).getD "buffer" (Json.num 0)) = false →
              extract_draco_binary (Json.obj skvs) (some bin) idx =
                .error .unsupportedExternalBuffer) ∧
            ((Json.obj bkvs).getD "buffer" (Json.num 0) = Json.num 0 →
              (((Json.obj bkvs).getD "byteLength" Json.null = Json.null →
                  extract_draco_binary (Json.obj skvs) (some bin) idx =
                    .error .missingLength) ∧
                ∀ (off L : Int),
                  (Json.obj bkvs).getD "byteOffset" (Json.num 0) = Json.num off →
                  (Json.obj bkvs).lookup "byteLength" = some (Json.num L) →
                  (((bin.length : Int) < off + L →
                      extract_draco_binary (Json.obj skvs) (some bin) idx =
                        .error .rangeExceedsBuffer) ∧
                    (off + L ≤ (bin.length : Int) →
                      extract_draco_binary (Json.obj skvs) (some bin) idx =
                        .ok (pySlice bin off (off + L)))))))) := by
  refine ⟨rfl, rfl, ?_⟩
  intro views bin hbin hviews
  constructor
  · intro hge
    unfold extract_draco_binary
    simp only [List.isEmpty_eq_false.mpr hbin, hviews, pyLen, Bool.false_eq_true,
      if_false]
    rw [if_pos (show (views.length : Int) ≤ (idx : Int) by omega)]
  · intro bkvs hbv
    constructor
    · intro hz
      rw [extract_at_bv skvs views bkvs bin idx hbin hviews hbv]
      simp [hz]
    · intro hbuf
      have hz : pyEqZero ((Json.obj bkvs).getD "buffer" (Json.num 0)) = true := by
        rw [hbuf]; rfl
      constructor
      · intro hnull
        rw [extract_at_bv skvs views bkvs bin idx hbin hviews hbv]
        simp [hz, hnull, Json.isNull]
      · intro off L hoff hlen
        have hL : (Json.obj bkvs).getD "byteLength" Json.null = Json.num L := by
          unfold Json.getD
          rw [hlen]
          rfl
        constructor
        · intro hgt
          rw [extract_at_bv skvs views bkvs bin idx hbin hviews hbv]
          simp only [hz, Bool.not_true, Bool.false_eq_true, if_false, hL, hoff,
            pyToInt, Json.isNull]
          rw [if_pos hgt]
        · intro hle
          rw [extract_at_bv skvs views bkvs bin idx hbin hviews hbv]
          simp only [hz, Bool.not_true, Bool.false_eq_true, if_false, hL, hoff,
            pyToInt, Json.isNull]
          rw [if_neg (by omega)]

/-- Claim C3, witness: one scene exercising every arm of the
enumeration — missing buffer, out-of-range index, external buffer, missing
length, range overflow, and success. -/
theorem c3_witness :
    extract_draco_binary
        (Json.obj [("bufferViews", Json.arr
          [Json.obj [("buffer", Json.num 2)], Json.obj [],
            Json.obj [("byteLength", Json.num 99)],
            Json.obj [("byteOffset", Json.num 1), ("byteLength", Json.num 3)]])])
        none 0 = .error .noBinaryChunk ∧
    extract_draco_binary
        (Json.obj [("bufferViews", Json.arr
          [Json.obj [("buffer", Json.num 2)], Json.obj [],
            Json.obj [("byteLength", Json.num 99)],
            Json.obj [("byteOffset", Json.num 1), ("byteLength", Json.num 3)]])])
        (some [1, 2, 3, 4, 5]) 9 = .error .bufferViewOutOfRange ∧
    extract_draco_binary
        (Json.obj [("bufferViews", Json.arr
          [Json.obj [("buffer", Json.num 2)], Json.obj [],
            Json.obj [("byteLength", Json.num 99)],
            Json.obj [("byteOffset", Json.num 1), ("byteLength", Json.num 3)]])])
        (some [1, 2, 3, 4, 5]) 0 = .error .unsupportedExternalBuffer ∧
    extract_draco_binary
        (Json.obj [("bufferViews", Json.arr
          [Json.obj [("buffer", Json.num 2)], Json.obj [],
            Json.obj [("byteLength", Json.num 99)],
            Json.obj [("byteOffset", Json.num 1), ("byteLength", Json.num 3)]])])
        (some [1, 2, 3, 4, 5]) 1 = .error .missingLength ∧
    extract_draco_binary
        (Json.obj [("bufferViews", Json.arr
          [Json.obj [("buffer", Json.num 2)], Json.obj [],
            Json.obj [("byteLength", Json.num 99)],
            Json.obj [("byteOffset", Json.num 1), ("byteLength", Json.num 3)]])])
        (some [1, 2, 3, 4, 5]) 2 = .error .rangeExceedsBuffer ∧
    extract_draco_binary
        (Json.obj [("bufferViews", Json.arr
          [Json.obj [("buffer", Json.num 2)], Json.obj [],
            Json.obj [("byteLength", Json.num 99)],
            Json.obj [("byteOffset", Json.num 1), ("byteLength", Json.num 3)]])])
        (some [1, 2, 3, 4, 5]) 3 = .ok (pySlice [1, 2, 3, 4, 5] 1 (1 + 3)) := by
  refine ⟨(c3_error_enumeration_amended [("bufferViews", Json.arr
      [Json.obj [("buffer", Json.num 2)], Json.obj [],
        Json.obj [("byteLength", Json.num 99)],
        Json.obj [("byteOffset", Json.num 1), ("byteLength", Json.num 3)]])] 0).1, ?_, ?_, ?_, ?_, ?_⟩
  · exact ((c3_error_enumeration_amended [("bufferViews", Json.arr
      [Json.obj [("buffer", Json.num 2)], Json.obj [],
        Json.obj [("byteLength", Json.num 99)],
        Json.obj [("byteOffset", Json.num 1), ("byteLength", Json.num 3)]])] 9).2.2
      [Json.obj [("buffer", Json.num 2)], Json.obj [],
      Json.obj [("byteLength", Json.num 99)],
      Json.obj [("byteOffset", Json.num 1), ("byteLength", Json.num 3)]] [1, 2, 3, 4, 5] (by simp) rfl).1 (by decide)
  · exact (((c3_error_enumeration_amended [("bufferViews", Json.arr
      [Json.obj [("buffer", Json.num 2)], Json.obj [],
        Json.obj [("byteLength", Json.num 99)],
        Json.obj [("byteOffset", Json.num 1), ("byteLength", Json.num 3)]])] 0).2.2
      [Json.obj [("buffer", Json.num 2)], Json.obj [],
      Json.obj [("byteLength", Json.num 99)],
      Json.obj [("byteOffset", Json.num 1), ("byteLength", Json.num 3)]] [1, 2, 3, 4, 5] (by simp) rfl).2
      [("buffer", Json.num 2)] rfl).1 rfl
  · exact ((((c3_error_enumeration_amended [("bufferViews", Json.arr
      [Json.obj [("buffer", Json.num 2)], Json.obj [],
        Json.obj [("byteLength", Json.num 99)],
        Json.obj [("byteOffset", Json.num 1), ("byteLength", Json.num 3)]])] 1).2.2
      [Json.obj [("buffer", Json.num 2)], Json.obj [],
      Json.obj [("byteLength", Json.num 99)],
      Json.obj [("byteOffset", Json.num 1), ("byteLength", Json.num 3)]] [1, 2, 3, 4, 5] (by simp) rfl).2 [] rfl).2 rfl).1 rfl
  · exact (((((c3_error_enumeration_amended [("bufferViews", Json.arr
      [Json.obj [("buffer", Json.num 2)], Json.obj [],
        Json.obj [("byteLength", Json.num 99)],
        Json.obj [("byteOffset", Json.num 1), ("byteLength", Json.num 3)]])] 2).2.2
      [Json.obj [("buffer", Json.num 2)], Json.obj [],
      Json.obj [("byteLength", Json.num 99)],
      Json.obj [("byteOffset", Json.num 1), ("byteLength", Json.num 3)]] [1, 2, 3, 4, 5] (by simp) rfl).2
      [("byteLength", Json.num 99)] rfl).2 rfl).2 0 99 rfl rfl).1 (by decide)
  · exact (((((c3_error_enumeration_amended [("bufferViews", Json.arr
      [Json.obj [("buffer", Json.num 2)], Json.obj [],
        Json.obj [("byteLength", Json.num 99)],
        Json.obj [("byteOffset", Json.num 1), ("byteLength", Json.num 3)]])] 3).2.2
      [Json.obj [("buffer", Json.num 2)], Json.obj [],
      Json.obj [("byteLength", Json.num 99)],
      Json.obj [("byteOffset", Json.num 1), ("byteLength", Json.num 3)]] [1, 2, 3, 4, 5] (by simp) rfl).2
      [("byteOffset", Json.num 1), ("byteLength", Json.num 3)] rfl).2
      rfl).2 1 3 rfl rfl).2 (by decide)

/-- Claim C7, counterexample: a buffer view with `buffer: 1` referenced
while the binary chunk is absent.  The claim demands the external-buffer
error "regardless of the rest of the input"; the code checks the binary
chunk first and raises the no-binary-chunk error instead. -/
theorem c7_counterexample :
    extract_draco_binary
        (Json.obj [("bufferViews", Json.arr [Json.obj [("buffer", Json.num 1)]])])
        none 0 = .error .noBinaryChunk ∧
    extract_draco_binary
        (Json.obj [("bufferViews", Json.arr [Json.obj [("buffer", Json.num 1)]])])
        none 0 ≠ .error .unsupportedExternalBuffer :=
  ⟨rfl, fun h => by cases h⟩

/-- Claim C7, amended: provided the binary chunk is present and non-empty
and the index is in range, a referenced buffer view whose `buffer` value
is not (Python-equal to) 0 always fails with the external-buffer error,
regardless of the buffer view's other fields. -/
theorem c7_external_amended (skvs : List (String × Json)) (views : List Json)
    (bkvs : List (String × Json)) (bin : List Nat) (idx : Nat)
    (hbin : bin ≠ [])
    (hviews : (Json.obj skvs).getD "bufferViews" (Json.arr []) = Json.arr views)
    (hbv : views.get? idx = some (Json.obj bkvs))
    (hnz : pyEqZero ((Json.obj bkvs).getD "buffer" (Json.num 0)) = false) :
    extract_draco_binary (Json.obj skvs) (some bin) idx =
      .error .unsupportedExternalBuffer := by
  rw [extract_at_bv skvs views bkvs bin idx hbin hviews hbv]
  simp [hnz]

/-- Claim C7, witness: `{buffer: 1, byteLength: 4}` against a two-byte
binary chunk. -/
theorem c7_witness :
    pyEqZero ((Json.obj [("buffer", Json.num 1), ("byteLength", Json.num 4)]).getD
        "buffer" (Json.num 0)) = false ∧
    extract_draco_binary
        (Json.obj [("bufferViews", Json.arr
          [Json.obj [("buffer", Json.num 1), ("byteLength", Json.num 4)]])])
        (some [1, 2]) 0 = .error .unsupportedExternalBuffer :=
  ⟨rfl,
   c7_external_amended
     [("bufferViews", Json.arr
       [Json.obj [("buffer", Json.num 1), ("byteLength", Json.num 4)]])]
     [Json.obj [("buffer", Json.num 1), ("byteLength", Json.num 4)]]
     [("buffer", Json.num 1), ("byteLength", Json.num 4)]
     [1, 2] 0 (by simp) rfl rfl rfl⟩

/-- Resolving a negative in-range index from the back of the list. -/
theorem pyIndex_neg (xs : List Json) (i : Int)
    (h1 : -(xs.length : Int) ≤ i) (h2 : i < 0) :
    pyIndex xs i = pyIndex xs (i + xs.length) := by
  unfold pyIndex
  rw [if_neg (by omega), if_pos (by omega), if_pos (by omega)]

/-- Claim C9: the out-of-range check only fires for indices at or above
the buffer-view count, so a negative index never produces the
out-of-range error; a negative index within Python's back-counting range
behaves exactly like the corresponding index from the end of the
sequence. -/
theorem c9_negative_index :
    (∀ (scene : Json) (bo : Option (List Nat)) (idx : Int), idx < 0 →
      extract_draco_binary scene bo idx ≠ .error .bufferViewOutOfRange) ∧
    (∀ (skvs : List (String × Json)) (views : List Json)
        (bo : Option (List Nat)) (idx : Int),
      (Json.obj skvs).getD "bufferViews" (Json.arr []) = Json.arr views →
      -(views.length : Int) ≤ idx → idx < 0 →
      extract_draco_binary (Json.obj skvs) bo idx =
        extract_draco_binary (Json.obj skvs) bo (idx + views.length)) := by
  constructor
  · intro scene bo idx hneg
    unfold extract_draco_binary
    repeat' split <;> try simp_all
    all_goals omega
  · intro skvs views bo idx hviews h1 h2
    unfold extract_draco_binary
    cases bo with
    | none => rfl
    | some bin =>
      by_cases hbe : bin.isEmpty = true <;>
        simp only [hbe, if_true, Bool.false_eq_true, if_false]
      simp only [hviews, pyLen]
      rw [if_neg (by omega), if_neg (by omega), pyIndex_neg views idx h1 h2]

/-- Claim C9, witness: index `-1` against two buffer views selects the
last view (the same result as index 1, here a successful extraction), and
index `-5` does not raise the out-of-range error. -/
theorem c9_witness :
    extract_draco_binary
        (Json.obj [("bufferViews", Json.arr
          [Json.obj [("byteLength", Json.num 1)],
            Json.obj [("byteLength", Json.num 2)]])])
        (some [9, 8, 7]) (-1) =
      extract_draco_binary
        (Json.obj [("bufferViews", Json.arr
          [Json.obj [("byteLength", Json.num 1)],
            Json.obj [("byteLength", Json.num 2)]])])
        (some [9, 8, 7]) 1 ∧
    extract_draco_binary
        (Json.obj [("bufferViews", Json.arr
          [Json.obj [("byteLength", Json.num 1)],
            Json.obj [("byteLength", Json.num 2)]])])
        (some [9, 8, 7]) (-5) ≠ .error .bufferViewOutOfRange :=
  ⟨c9_negative_index.2
     [("bufferViews", Json.arr
       [Json.obj [("byteLength", Json.num 1)],
         Json.obj [("byteLength", Json.num 2)]])]
     [Json.obj [("byteLength", Json.num 1)],
       Json.obj [("byteLength", Json.num 2)]]
     (some [9, 8, 7]) (-1) rfl (by decide) (by decide),
   c9_negative_index.1
     (Json.obj [("bufferViews", Json.arr
       [Json.obj [("byteLength", Json.num 1)],
         Json.obj [("byteLength", Json.num 2)]])])
     (some [9, 8, 7]) (-5) (by decide)⟩

/-!
The Draco locator: totality, ordering and membership.
-/

/-- A reference produced for a primitive carries that primitive's mesh
and primitive indices. -/
theorem refOfPrim_indices (mi pi : Nat) (p : Json) (r : DracoRef)
    (h : refOfPrim mi pi p = .ok (some r)) :
    r.mesh_index = mi ∧ r.primitive_index = pi := by
  unfold refOfPrim at h
  cases p <;> try cases h
  case obj pkvs =>
    cases hext : (Json.obj pkvs).getD "extensions" (Json.obj []) <;>
      simp only [hext] at h <;> try cases h
    case obj ekvs =>
      cases hdr : (Json.obj ekvs).getD "KHR_draco_mesh_compression" Json.null <;>
        simp only [hdr] at h
      case null => simp [pyTruthy] at h
      case bool b => split at h <;> simp at h
      case num n => split at h <;> simp at h
      case str s => split at h <;> simp at h
      case arr xs => split at h <;> simp at h
      case obj dkvs =>
        split at h
        · split at h
          · simp at h
          · simp only [Except.ok.injEq, Option.some.injEq] at h
            subst h
            exact ⟨rfl, rfl⟩
        · simp at h

/-- On a well-formed primitive the loop body never raises. -/
theorem refOfPrim_wf (mi pi : Nat) (p : Json) (hp : wfPrim p = true) :
    ∃ o, refOfPrim mi pi p = .ok o := by
  cases p with
  | obj pkvs =>
    unfold wfPrim at hp
    unfold refOfPrim
    cases hext : (Json.obj pkvs).getD "extensions" (Json.obj []) with
    | obj ekvs =>
      simp only [hext] at hp
      simp only [hext]
      cases hdr : (Json.obj ekvs).getD "KHR_draco_mesh_compression" Json.null with
      | null => exact ⟨none, by simp [hdr, pyTruthy]⟩
      | obj dkvs =>
        by_cases ht : pyTruthy (Json.obj dkvs) = true
        · by_cases hnull :
            ((Json.obj dkvs).getD "bufferView" Json.null).isNull = true
          · exact ⟨none, by simp [hdr, ht, hnull]⟩
          · refine ⟨some
              { mesh_index := mi
                primitive_index := pi
                buffer_view_index := (Json.obj dkvs).getD "bufferView" Json.null
                attributes := (Json.obj dkvs).getD "attributes" (Json.obj [])
                indices := (Json.obj dkvs).getD "indices" Json.null }, ?_⟩
            simp [hdr, ht, hnull]
        · exact ⟨none, by simp [hdr, ht]⟩
      | bool b => rw [hdr] at hp; simp [wfDraco] at hp
      | num n => rw [hdr] at hp; simp [wfDraco] at hp
      | str sv => rw [hdr] at hp; simp [wfDraco] at hp
      | arr xs => rw [hdr] at hp; simp [wfDraco] at hp
    | null => simp only [hext] at hp; simp at hp
    | bool b => simp only [hext] at hp; simp at hp
    | num n => simp only [hext] at hp; simp at hp
    | str sv => simp only [hext] at hp; simp at hp
    | arr xs => simp only [hext] at hp; simp at hp
  | null => simp [wfPrim] at hp
  | bool b => simp [wfPrim] at hp
  | num n => simp [wfPrim] at hp
  | str sv => simp [wfPrim] at hp
  | arr xs => simp [wfPrim] at hp

/-- The primitive loop never raises on well-formed primitives, tags every
reference with the mesh index, and emits strictly increasing primitive
indices. -/
theorem collectPrims_wf (mi : Nat) (ps : List Json) :
    ∀ (j : Nat), ps.all wfPrim = true →
    ∃ l, collectPrims mi j ps = .ok l ∧
      (∀ r ∈ l, r.mesh_index = mi ∧ j ≤ r.primitive_index) ∧
      l.Pairwise (fun a b => a.primitive_index < b.primitive_index) := by
  induction ps with
  | nil => exact fun j _ => ⟨[], rfl, by simp, List.Pairwise.nil⟩
  | cons p rest ih =>
    intro j hall
    rw [List.all_cons, Bool.and_eq_true] at hall
    obtain ⟨o, ho⟩ := refOfPrim_wf mi j p hall.1
    obtain ⟨l', hl', hmem', hpair'⟩ := ih (j + 1) hall.2
    cases o with
    | none =>
      refine ⟨l', ?_, ?_, hpair'⟩
      · unfold collectPrims
        rw [ho, hl']
      · intro r hr
        obtain ⟨h1, h2⟩ := hmem' r hr
        exact ⟨h1, by omega⟩
    | some x =>
      obtain ⟨hxm, hxp⟩ := refOfPrim_indices mi j p x ho
      refine ⟨x :: l', ?_, ?_, ?_⟩
      · unfold collectPrims
        rw [ho, hl']
      · intro r hr
        rcases List.mem_cons.mp hr with rfl | hr'
        · exact ⟨hxm, by omega⟩
        · obtain ⟨h1, h2⟩ := hmem' r hr'
          exact ⟨h1, by omega⟩
      · refine List.Pairwise.cons ?_ hpair'
        intro r hr'
        obtain ⟨_, h2⟩ := hmem' r hr'
        omega

/-- One mesh's references: never raises when well-formed, all tagged with
the mesh index, primitive indices strictly increasing. -/
theorem meshRefs_wf (k : Nat) (m : Json) (hm : wfMesh m = true) :
    ∃ l, meshRefs k m = .ok l ∧
      (∀ r ∈ l, r.mesh_index = k) ∧
      l.Pairwise (fun a b => a.primitive_index < b.primitive_index) := by
  cases m with
  | obj mkvs =>
    unfold wfMesh at hm
    unfold meshRefs
    cases hpr : (Json.obj mkvs).getD "primitives" (Json.arr []) with
    | arr ps =>
      simp only [hpr] at hm
      obtain ⟨l, hl, hmem, hpair⟩ := collectPrims_wf k ps 0 hm
      exact ⟨l, hl, fun r hr => (hmem r hr).1, hpair⟩
    | null => simp only [hpr] at hm; simp at hm
    | bool b => simp only [hpr] at hm; simp at hm
    | num n => simp only [hpr] at hm; simp at hm
    | str sv => simp only [hpr] at hm; simp at hm
    | obj kv2 => simp only [hpr] at hm; simp at hm
  | null => simp [wfMesh] at hm
  | bool b => simp [wfMesh] at hm
  | num n => simp [wfMesh] at hm
  | str sv => simp [wfMesh] at hm
  | arr xs => simp [wfMesh] at hm

/-- The mesh loop never raises on well-formed meshes and yields references
in strict (mesh, primitive) lexicographic order. -/
theorem collectMeshes_wf (ms : List Json) :
    ∀ (k : Nat), ms.all wfMesh = true →
    ∃ l, collectMeshes k ms = .ok l ∧
      (∀ r ∈ l, k ≤ r.mesh_index) ∧ l.Pairwise refLexLt := by
  induction ms with
  | nil => exact fun k _ => ⟨[], rfl, by simp, List.Pairwise.nil⟩
  | cons m rest ih =>
    intro k hall
    rw [List.all_cons, Bool.and_eq_true] at hall
    obtain ⟨l1, hl1, hmesh1, hpair1⟩ := meshRefs_wf k m hall.1
    obtain ⟨l2, hl2, hmem2, hpair2⟩ := ih (k + 1) hall.2
    refine ⟨l1 ++ l2, ?_, ?_, ?_⟩
    · unfold collectMeshes
      rw [hl1, hl2]
    · intro r hr
      rcases List.mem_append.mp hr with h1 | h2
      · exact le_of_eq (hmesh1 r h1).symm
      · have := hmem2 r h2
        omega
    · rw [List.pairwise_append]
      refine ⟨?_, hpair2, ?_⟩
      · refine hpair1.imp_of_mem ?_
        intro a b ha hb hab
        right
        exact ⟨(hmesh1 a ha).trans (hmesh1 b hb).symm, hab⟩
      · intro a ha b hb
        left
        rw [hmesh1 a ha]
        have := hmem2 b hb
        omega

/-- Claim C4: on every scene description matching the data model,
`find_draco_buffers` never fails, its output is strictly ordered by
(mesh index, primitive index) — hence matches declaration order — and a
scene without a `meshes` entry yields the empty sequence. -/
theorem c4_locate_total_ordered (scene : Json) (hwf : wfScene scene = true) :
    (∃ l, find_draco_buffers scene = .ok l ∧ l.Pairwise refLexLt) ∧
    (scene.lookup "meshes" = none → find_draco_buffers scene = .ok []) := by
  cases scene with
  | obj skvs =>
    unfold wfScene at hwf
    unfold find_draco_buffers
    cases hms : (Json.obj skvs).lookup "meshes" with
    | none => exact ⟨⟨[], rfl, .nil⟩, fun _ => rfl⟩
    | some v =>
      cases v with
      | arr ms =>
        simp only [hms] at hwf ⊢
        obtain ⟨l, hl, _, hpair⟩ := collectMeshes_wf ms 0 hwf
        refine ⟨⟨l, hl, hpair⟩, ?_⟩
        intro hnone
        cases hnone
      | null => simp only [hms] at hwf; simp at hwf
      | bool b => simp only [hms] at hwf; simp at hwf
      | num n => simp only [hms] at hwf; simp at hwf
      | str sv => simp only [hms] at hwf; simp at hwf
      | obj kv2 => simp only [hms] at hwf; simp at hwf
  | null => simp [wfScene] at hwf
  | bool b => simp [wfScene] at hwf
  | num n => simp [wfScene] at hwf
  | str sv => simp [wfScene] at hwf
  | arr xs => simp [wfScene] at hwf

/-- Membership in the primitive loop's output characterized by the
producing primitive. -/
theorem mem_collectPrims (mi : Nat) (ps : List Json) :
    ∀ (j : Nat) (l : List DracoRef) (r : DracoRef),
      collectPrims mi j ps = .ok l →
      (r ∈ l ↔ ∃ k p, ps.get? k = some p ∧
        refOfPrim mi (j + k) p = .ok (some r)) := by
  induction ps with
  | nil =>
    intro j l r h
    simp only [collectPrims, Except.ok.injEq] at h
    subst h
    simp
  | cons p rest ih =>
    intro j l r h
    unfold collectPrims at h
    cases ho : refOfPrim mi j p with
    | error e => rw [ho] at h; cases h
    | ok o =>
      rw [ho] at h
      cases hrest : collectPrims mi (j + 1) rest with
      | error e => rw [hrest] at h; cases h
      | ok l' =>
        rw [hrest] at h
        simp only [Except.ok.injEq] at h
        subst h
        have hih := ih (j + 1) l' r hrest
        cases o with
        | none =>
          rw [hih]
          constructor
          · rintro ⟨k, q, hk, hq⟩
            refine ⟨k + 1, q, by simpa using hk, ?_⟩
            rw [show j + (k + 1) = j + 1 + k by omega]
            exact hq
          · rintro ⟨k, q, hk, hq⟩
            cases k with
            | zero =>
              simp only [List.get?_cons_zero, Option.some.injEq] at hk
              subst hk
              rw [show j + 0 = j by omega, ho] at hq
              cases hq
            | succ k' =>
              refine ⟨k', q, by simpa using hk, ?_⟩
              rw [show j + 1 + k' = j + (k' + 1) by omega]
              exact hq
        | some x =>
          simp only [List.mem_cons]
          constructor
          · rintro (rfl | hr')
            · refine ⟨0, p, rfl, ?_⟩
              rw [show j + 0 = j by omega]
              exact ho
            · obtain ⟨k, q, hk, hq⟩ := hih.mp hr'
              refine ⟨k + 1, q, by simpa using hk, ?_⟩
              rw [show j + (k + 1) = j + 1 + k by omega]
              exact hq
          · rintro ⟨k, q, hk, hq⟩
            cases k with
            | zero =>
              simp only [List.get?_cons_zero, Option.some.injEq] at hk
              subst hk
              rw [show j + 0 = j by omega, ho] at hq
              simp only [Except.ok.injEq, Option.some.injEq] at hq
              exact Or.inl hq.symm
            | succ k' =>
              refine Or.inr (hih.mpr ⟨k', q, by simpa using hk, ?_⟩)
              rw [show j + 1 + k' = j + (k' + 1) by omega]
              exact hq

/-- Membership in the mesh loop's output characterized by the producing
mesh. -/
theorem mem_collectMeshes (ms : List Json) :
    ∀ (k : Nat) (l : List DracoRef) (r : DracoRef),
      collectMeshes k ms = .ok l →
      (r ∈ l ↔ ∃ i m lm, ms.get? i = some m ∧
        meshRefs (k + i) m = .ok lm ∧ r ∈ lm) := by
  induction ms with
  | nil =>
    intro k l r h
    simp only [collectMeshes, Except.ok.injEq] at h
    subst h
    simp
  | cons m rest ih =>
    intro k l r h
    unfold collectMeshes at h
    cases hm : meshRefs k m with
    | error e => rw [hm] at h; cases h
    | ok rs =>
      rw [hm] at h
      cases hrest : collectMeshes (k + 1) rest with
      | error e => rw [hrest] at h; cases h
      | ok more =>
        rw [hrest] at h
        simp only [Except.ok.injEq] at h
        subst h
        have hih := ih (k + 1) more r hrest
        rw [List.mem_append, hih]
        constructor
        · rintro (hr | ⟨i, mm, lm, hi, hml, hrm⟩)
          · refine ⟨0, m, rs, rfl, ?_, hr⟩
            rw [show k + 0 = k by omega]
            exact hm
          · refine ⟨i + 1, mm, lm, by simpa using hi, ?_, hrm⟩
            rw [show k + (i + 1) = k + 1 + i by omega]
            exact hml
        · rintro ⟨i, mm, lm, hi, hml, hrm⟩
          cases i with
          | zero =>
            simp only [List.get?_cons_zero, Option.some.injEq] at hi
            subst hi
            rw [show k + 0 = k by omega, hm] at hml
            simp only [Except.ok.injEq] at hml
            subst hml
            exact Or.inl hrm
          | succ i' =>
            refine Or.inr ⟨i', mm, lm, by simpa using hi, ?_, hrm⟩
            rw [show k + 1 + i' = k + (i' + 1) by omega]
            exact hml

/-- Claim C10: a primitive contributes a reference exactly when its Draco
extension record is truthy (in particular non-empty) and carries a
`bufferView` value that is not `null`; a primitive whose record is the
empty object, or lacks `bufferView`, contributes nothing. -/
theorem c10_membership (skvs mkvs pkvs ekvs : List (String × Json))
    (meshes prims : List Json) (l : List DracoRef) (mi pi : Nat) (draco : Json)
    (hwf : wfScene (Json.obj skvs) = true)
    (hfind : find_draco_buffers (Json.obj skvs) = .ok l)
    (hms : (Json.obj skvs).lookup "meshes" = some (Json.arr meshes))
    (hmesh : meshes.get? mi = some (Json.obj mkvs))
    (hprims : (Json.obj mkvs).getD "primitives" (Json.arr []) = Json.arr prims)
    (hprim : prims.get? pi = some (Json.obj pkvs))
    (hext : (Json.obj pkvs).getD "extensions" (Json.obj []) = Json.obj ekvs)
    (hdr : (Json.obj ekvs).getD "KHR_draco_mesh_compression" Json.null = draco) :
    ((∃ r ∈ l, r.mesh_index = mi ∧ r.primitive_index = pi) ↔
      (pyTruthy draco = true ∧
        (draco.getD "bufferView" Json.null).isNull = false)) := by
  -- well-formedness of the pieces
  have hall : meshes.all wfMesh = true := by
    unfold wfScene at hwf
    simp only [hms] at hwf
    exact hwf
  have hmwf : wfMesh (Json.obj mkvs) = true :=
    List.all_eq_true.mp hall _ (List.get?_mem hmesh)
  have hpall : prims.all wfPrim = true := by
    unfold wfMesh at hmwf
    simp only [hprims] at hmwf
    exact hmwf
  have hpwf : wfPrim (Json.obj pkvs) = true :=
    List.all_eq_true.mp hpall _ (List.get?_mem hprim)
  have hdwf : wfDraco draco = true := by
    unfold wfPrim at hpwf
    simp only [hext, hdr] at hpwf
    exact hpwf
  -- find reduces to collectMeshes
  have hcm : collectMeshes 0 meshes = .ok l := by
    unfold find_draco_buffers at hfind
    simp only [hms] at hfind
    exact hfind
  constructor
  · rintro ⟨r, hr, hrm, hrp⟩
    obtain ⟨i, m, lm, hi, hml, hrlm⟩ :=
      (mem_collectMeshes meshes 0 l r hcm).mp hr
    -- the mesh index of everything in lm is i
    have hmwf' : wfMesh m = true :=
      List.all_eq_true.mp hall _ (List.get?_mem hi)
    obtain ⟨l0, hl0, hmem0, _⟩ := meshRefs_wf (0 + i) m hmwf'
    rw [hml] at hl0
    have hlm0 : lm = l0 := by
      simpa using hl0
    subst hlm0
    have hieq : i = mi := by
      have := hmem0 r hrlm
      omega
    subst hieq
    rw [hi] at hmesh
    have hmeq : m = Json.obj mkvs := by
      simpa using hmesh
    subst hmeq
    -- meshRefs reduces to collectPrims
    have hcp : collectPrims (0 + i) 0 prims = .ok lm := by
      unfold meshRefs at hml
      simp only [hprims] at hml
      exact hml
    obtain ⟨k, q, hk, hq⟩ := (mem_collectPrims (0 + i) prims 0 lm r hcp).mp hrlm
    have hkidx := refOfPrim_indices _ _ _ _ hq
    have hkeq : k = pi := by omega
    subst hkeq
    rw [hk] at hprim
    have hqeq : q = Json.obj pkvs := by
      simpa using hprim
    subst hqeq
    -- unfold the primitive step
    unfold refOfPrim at hq
    simp only [hext, hdr] at hq
    cases draco with
    | null => simp [pyTruthy] at hq
    | obj dkvs =>
      constructor
      · by_contra htr
        simp only [Bool.not_eq_true] at htr
        rw [htr] at hq
        simp at hq
      · by_cases htr : pyTruthy (Json.obj dkvs) = true
        · rw [htr] at hq
          simp only [if_true] at hq
          by_contra hnn
          simp only [Bool.not_eq_false] at hnn
          rw [hnn] at hq
          simp at hq
        · simp only [Bool.not_eq_true] at htr
          rw [htr] at hq
          simp at hq
    | bool b => simp [wfDraco] at hdwf
    | num n => simp [wfDraco] at hdwf
    | str sv => simp [wfDraco] at hdwf
    | arr xs => simp [wfDraco] at hdwf
  · rintro ⟨htr, hnn⟩
    -- build the reference produced for this primitive
    have hq : refOfPrim mi pi (Json.obj pkvs) = .ok (some
        { mesh_index := mi
          primitive_index := pi
          buffer_view_index := draco.getD "bufferView" Json.null
          attributes := draco.getD "attributes" (Json.obj [])
          indices := draco.getD "indices" Json.null }) := by
      cases draco with
      | obj dkvs =>
        unfold refOfPrim
        simp only [hext, hdr, htr, if_true, hnn]
        simp
      | null => simp [pyTruthy] at htr
      | bool b => simp [wfDraco] at hdwf
      | num n => simp [wfDraco] at hdwf
      | str sv => simp [wfDraco] at hdwf
      | arr xs => simp [wfDraco] at hdwf
    obtain ⟨lm, hlm, _, _⟩ := collectPrims_wf mi prims 0 hpall
    have hrlm := (mem_collectPrims mi prims 0 lm _ hlm).mpr
      ⟨pi, Json.obj pkvs, hprim, by rw [show (0 : Nat) + pi = pi by omega]; exact hq⟩
    have hml : meshRefs (0 + mi) (Json.obj mkvs) = .ok lm := by
      unfold meshRefs
      simp only [hprims]
      rw [show (0 : Nat) + mi = mi by omega]
      exact hlm
    have hr := (mem_collectMeshes meshes 0 l _ hcm).mpr
      ⟨mi, Json.obj mkvs, lm, hmesh, hml, hrlm⟩
    exact ⟨_, hr, rfl, rfl⟩

/-- Claim C4, witness: a scene with one mesh whose first primitive carries
the Draco extension and whose second carries none. -/
theorem c4_witness :
    wfScene (Json.obj [("meshes", Json.arr [Json.obj [("primitives", Json.arr
      [Json.obj [("extensions", Json.obj [("KHR_draco_mesh_compression",
        Json.obj [("bufferView", Json.num 5)])])],
        Json.obj []])]])]) = true ∧
    (∃ l, find_draco_buffers
        (Json.obj [("meshes", Json.arr [Json.obj [("primitives", Json.arr
          [Json.obj [("extensions", Json.obj [("KHR_draco_mesh_compression",
            Json.obj [("bufferView", Json.num 5)])])],
            Json.obj []])]])]) = .ok l ∧
      l.Pairwise refLexLt) :=
  ⟨rfl,
   (c4_locate_total_ordered
     (Json.obj [("meshes", Json.arr [Json.obj [("primitives", Json.arr
       [Json.obj [("extensions", Json.obj [("KHR_draco_mesh_compression",
         Json.obj [("bufferView", Json.num 5)])])],
         Json.obj []])]])]) rfl).1⟩

/-- Claim C10, witness: in the same scene the Draco-carrying primitive
(0, 0) contributes a reference. -/
theorem c10_witness :
    pyTruthy (Json.obj [("bufferView", Json.num 5)]) = true ∧
    (∃ r ∈ [DracoRef.mk 0 0 (Json.num 5) (Json.obj []) Json.null],
      r.mesh_index = 0 ∧ r.primitive_index = 0) :=
  ⟨rfl,
   (c10_membership
     [("meshes", Json.arr [Json.obj [("primitives", Json.arr
       [Json.obj [("extensions", Json.obj [("KHR_draco_mesh_compression",
         Json.obj [("bufferView", Json.num 5)])])],
         Json.obj []])]])]
     [("primitives", Json.arr
       [Json.obj [("extensions", Json.obj [("KHR_draco_mesh_compression",
         Json.obj [("bufferView", Json.num 5)])])],
         Json.obj []])]
     [("extensions", Json.obj [("KHR_draco_mesh_compression",
       Json.obj [("bufferView", Json.num 5)])])]
     [("KHR_draco_mesh_compression", Json.obj [("bufferView", Json.num 5)])]
     [Json.obj [("primitives", Json.arr
       [Json.obj [("extensions", Json.obj [("KHR_draco_mesh_compression",
         Json.obj [("bufferView", Json.num 5)])])],
         Json.obj []])]]
     [Json.obj [("extensions", Json.obj [("KHR_draco_mesh_compression",
       Json.obj [("bufferView", Json.num 5)])])],
       Json.obj []]
     [DracoRef.mk 0 0 (Json.num 5) (Json.obj []) Json.null]
     0 0 (Json.obj [("bufferView", Json.num 5)])
     rfl rfl rfl rfl rfl rfl rfl rfl).mpr ⟨rfl, rfl⟩⟩
